import Mathlib

/-
  Verification development for a small freelance-marketplace REST backend
  (Express + MySQL). The handlers in server.js and login.js are shallowly
  embedded as pure Lean functions over an explicit database state. External
  collaborators (bcryptjs, jsonwebtoken, Brevo email, Cloudinary storage)
  are modelled as small abstract functions whose observable behaviour
  matches how the handlers use them.
-/

set_option maxHeartbeats 1000000

/-- Model of a bcrypt hash as produced by bcrypt.hash(password, 10): a salted
one-way digest. The salt is abstract; bcrypt.compare succeeds exactly on the
original password. -/
structure Hash where
  cost : Nat
  salt : Nat
  pw : String
deriving Repr, DecidableEq

/-- bcrypt.hash(password, cost). bcryptjs throws "Illegal arguments" when the
password is not a string (e.g. undefined), which we model as the error case;
inside an async handler this surfaces as a rejected promise caught by the
catch-all of the handler. -/
def bcryptHash (password : Option String) (cost : Nat) (salt : Nat) : Except String Hash :=
  match password with
  | none => Except.error "Illegal arguments: undefined, number"
  | some p => Except.ok { cost := cost, salt := salt, pw := p }

/-- bcrypt.compare(password, storedHash). -/
def bcryptCompare (password : String) (h : Hash) : Bool :=
  password == h.pw

/-- The payload jwt.sign embeds: { id, role } of the authenticated user. -/
structure JwtPayload where
  id : Nat
  role : String
deriving Repr, DecidableEq

/-- A signed token: payload plus the signing secret and the absolute expiry
time (seconds). Signature validity is modelled as equality of secrets. -/
structure Jwt where
  payload : JwtPayload
  secret : String
  exp : Nat
deriving Repr, DecidableEq

/-- jwt.sign(payload, secret, expiresIn 24h): expiry is issue time plus
24 hours. -/
def jwtSign (payload : JwtPayload) (secret : String) (now : Nat) : Jwt :=
  { payload := payload, secret := secret, exp := now + 24 * 3600 }

/-- jwt.verify(token, secret): fails on a wrong signature or on an expired
token (jsonwebtoken reports TokenExpiredError when now is at or past exp),
otherwise returns the decoded payload. -/
def jwtVerify (t : Jwt) (secret : String) (now : Nat) : Except String JwtPayload :=
  if t.secret ≠ secret then Except.error "invalid signature"
  else if t.exp ≤ now then Except.error "jwt expired"
  else Except.ok t.payload

/-- A row of the users table. bio and avatar_url are nullable and default to
NULL on insert (the register INSERT supplies neither). -/
structure User where
  id : Nat
  name : String
  email : String
  password : Hash
  role : String
  bio : Option String := none
  avatar_url : Option String := none
deriving Repr, DecidableEq

/-- A row of the jobs table. status defaults to "open" and freelancer_id to
NULL on insert (the createJob INSERT supplies neither). -/
structure Job where
  id : Nat
  client_id : Nat
  title : String
  description : String
  budget : Int
  status : String := "open"
  freelancer_id : Option Nat := none
deriving Repr, DecidableEq

/-- A row of the messages table; created_at is the DB timestamp. -/
structure Message where
  job_id : Nat
  sender_id : Nat
  receiver_id : Nat
  content : String
  created_at : Nat
deriving Repr, DecidableEq

/-- The relational state: three tables plus the AUTO_INCREMENT counters
(MySQL assigns ids from 1). -/
structure Db where
  users : List User
  jobs : List Job
  messages : List Message
  nextUserId : Nat := 1
  nextJobId : Nat := 1
deriving Repr, DecidableEq

def emptyDb : Db :=
  { users := [], jobs := [], messages := [] }

/-! ### Auth flow (login.js) -/

/-- sendEmailBrevo wraps the axios POST to Brevo in its own try/catch: a
failed send is logged and the function returns undefined, so the failure
never propagates to the caller. The axios outcome is passed in as a
parameter. -/
def sendEmailBrevo (axiosOutcome : Except String Unit) : Option Unit :=
  match axiosOutcome with
  | Except.ok r => some r
  | Except.error _ => none

inductive RegisterRes
  /-- 400 "Email já cadastrado" (ConflictError) -/
  | conflict
  /-- 201, with result.insertId -/
  | created (userId : Nat)
  /-- 500 catch-all (InternalError) -/
  | internalError
deriving Repr, DecidableEq

/-- Body of the POST /register try-block (login.js). Any thrown error is an
Except.error, caught by `register` below. `role` uses JS truthiness: an
absent or empty role falls back to "freelancer". -/
def registerBody (db : Db) (name email : String) (password : Option String)
    (role : Option String) (salt : Nat) (axiosOutcome : Except String Unit) :
    Except String (RegisterRes × Db) := do
  let users := db.users.filter (fun u => u.email == email)
  if users.length > 0 then
    return (RegisterRes.conflict, db)
  let hashedPassword ← bcryptHash password 10 salt
  let userRole := match role with
    | some r => if r == "" then "freelancer" else r
    | none => "freelancer"
  let newUser : User := { id := db.nextUserId, name := name, email := email,
                          password := hashedPassword, role := userRole }
  let db2 : Db := { db with users := db.users ++ [newUser],
                            nextUserId := db.nextUserId + 1 }
  let _ := sendEmailBrevo axiosOutcome
  return (RegisterRes.created newUser.id, db2)

/-- POST /register handler: the try-block with the catch-all mapping any
thrown error to a 500. -/
def register (db : Db) (name email : String) (password : Option String)
    (role : Option String) (salt : Nat) (axiosOutcome : Except String Unit) :
    RegisterRes × Db :=
  match registerBody db name email password role salt axiosOutcome with
  | Except.ok r => r
  | Except.error _ => (RegisterRes.internalError, db)

/-- The public user projection returned by login. -/
structure PublicUser where
  id : Nat
  name : String
  role : String
  avatar : Option String
deriving Repr, DecidableEq

inductive LoginRes
  /-- 400 "Usuário não encontrado" (NotFoundError) -/
  | notFound
  /-- 400 "Senha incorreta" (InvalidCredentialError) -/
  | invalidCredential
  /-- 200 with token and public projection -/
  | ok (token : Jwt) (user : PublicUser)
deriving Repr, DecidableEq

/-- POST /login handler (login.js). Reads only; does not mutate the state. -/
def login (db : Db) (email password : String) (secret : String) (now : Nat) : LoginRes :=
  match db.users.filter (fun u => u.email == email) with
  | [] => LoginRes.notFound
  | user :: _ =>
    if bcryptCompare password user.password then
      LoginRes.ok (jwtSign { id := user.id, role := user.role } secret now)
        { id := user.id, name := user.name, role := user.role, avatar := user.avatar_url }
    else
      LoginRes.invalidCredential

/-! ### Access-control middleware (server.js authenticateToken) -/

/-- One space-separated word of the authorization header: either opaque text
or a well-formed signed token. -/
inductive HeaderWord
  | raw (s : String)
  | tok (t : Jwt)
deriving Repr, DecidableEq

/-- JS truthiness of a header word: the empty string is falsy. -/
def wordFalsy : HeaderWord → Bool
  | HeaderWord.raw s => s == ""
  | HeaderWord.tok _ => false

/-- token = authHeader && authHeader.split(" ")[1]: the second space-separated
word when the header is present, with falsy values (undefined index, empty
word, empty header) treated as no token. -/
def extractToken (authHeader : Option (List HeaderWord)) : Option HeaderWord :=
  match authHeader with
  | none => none
  | some ws =>
    match ws.get? 1 with
    | none => none
    | some w => if wordFalsy w then none else some w

/-- jwt.verify applied to a header word: opaque text is malformed and fails. -/
def jwtVerifyWord (w : HeaderWord) (secret : String) (now : Nat) : Except String JwtPayload :=
  match w with
  | HeaderWord.raw _ => Except.error "jwt malformed"
  | HeaderWord.tok t => jwtVerify t secret now

inductive AuthRes
  /-- 401 "Acesso negado" (Unauthenticated) -/
  | unauthenticated
  /-- 403 "Token inválido" (Forbidden) -/
  | forbidden
  /-- next() with req.user set to the decoded payload -/
  | ok (user : JwtPayload)
deriving Repr, DecidableEq

/-- authenticateToken middleware (server.js). -/
def authenticateToken (authHeader : Option (List HeaderWord)) (secret : String)
    (now : Nat) : AuthRes :=
  match extractToken authHeader with
  | none => AuthRes.unauthenticated
  | some w =>
    match jwtVerifyWord w secret now with
    | Except.error _ => AuthRes.forbidden
    | Except.ok user => AuthRes.ok user

/-! ### Job lifecycle (server.js) -/

inductive CreateJobRes
  /-- 403 "Apenas clientes podem postar jobs" -/
  | forbidden
  /-- 201 with result.insertId -/
  | created (jobId : Nat)
deriving Repr, DecidableEq

/-- POST /jobs handler: client-only; INSERT leaves status and freelancer_id
at their schema defaults ("open", NULL). -/
def createJob (db : Db) (caller : JwtPayload) (title description : String)
    (budget : Int) : CreateJobRes × Db :=
  if caller.role ≠ "client" then (CreateJobRes.forbidden, db)
  else
    let job : Job := { id := db.nextJobId, client_id := caller.id,
                       title := title, description := description, budget := budget }
    (CreateJobRes.created db.nextJobId,
     { db with jobs := db.jobs ++ [job], nextJobId := db.nextJobId + 1 })

inductive HireRes
  /-- 403 "Apenas freelancers podem aceitar jobs" -/
  | forbidden
  /-- 404 "Job não disponível" (NotFoundError) -/
  | notFound
  /-- 200 "Job aceito com sucesso" -/
  | ok
deriving Repr, DecidableEq

/-- POST /jobs/:id/hire handler: freelancer-only; SELECT the job rows with
this id in status "open"; if none, 404; otherwise UPDATE every row with this
id to carry the caller as freelancer_id and status "in_progress". -/
def hire (db : Db) (jobId : Nat) (caller : JwtPayload) : HireRes × Db :=
  if caller.role ≠ "freelancer" then (HireRes.forbidden, db)
  else
    let jobs := db.jobs.filter (fun j => j.id == jobId && j.status == "open")
    if jobs.length = 0 then (HireRes.notFound, db)
    else
      (HireRes.ok,
       { db with jobs := db.jobs.map (fun j =>
           if j.id = jobId then
             { j with freelancer_id := some caller.id, status := "in_progress" }
           else j) })

/-! ### Messaging (server.js) -/

inductive SendMsgRes
  /-- 403 "Permissão negada" (Forbidden) -/
  | forbidden
  /-- 400 "O job ainda não foi aceito por um freelancer." (ValidationError) -/
  | validationError
  /-- 201 "Mensagem enviada" -/
  | created
deriving Repr, DecidableEq

/-- POST /messages handler. The body also carries receiverId, which is bound
but never used: the receiver is recomputed server-side. !finalReceiverId uses
JS truthiness, so NULL and 0 both trigger the validation error. -/
def sendMessage (db : Db) (caller : JwtPayload) (jobId : Nat) (content : String)
    (receiverId : Option Nat) (now : Nat) : SendMsgRes × Db :=
  let senderId := caller.id
  let _ := receiverId
  match db.jobs.filter (fun j =>
      j.id == jobId && (j.client_id == senderId || j.freelancer_id == some senderId)) with
  | [] => (SendMsgRes.forbidden, db)
  | j :: _ =>
    let finalReceiverId : Option Nat :=
      if senderId = j.client_id then j.freelancer_id else some j.client_id
    match finalReceiverId with
    | none => (SendMsgRes.validationError, db)
    | some r =>
      if r = 0 then (SendMsgRes.validationError, db)
      else
        (SendMsgRes.created,
         { db with messages := db.messages ++
             [{ job_id := jobId, sender_id := senderId, receiver_id := r,
                content := content, created_at := now }] })

/-! ### Profile service (server.js PUT /profile) -/

/-- An uploaded file buffer (held in memory by multer). -/
structure FileBuf where
  buffer : String
deriving Repr, DecidableEq

inductive ProfileRes
  /-- 200 "Nenhum dado fornecido para atualização." with avatar null -/
  | noop
  /-- 200 "Perfil atualizado com sucesso" with the avatar url (or null) -/
  | updated (avatar : Option String)
deriving Repr, DecidableEq

/-- Result of the profile handler together with whether external binary
storage (Cloudinary) was invoked. -/
structure ProfileOut where
  res : ProfileRes
  db : Db
  storageCalled : Bool
deriving Repr, DecidableEq

/-- finalBio = (bio === "" || bio === undefined) ? null : bio. -/
def finalBioOf (bio : Option String) : Option String :=
  match bio with
  | none => none
  | some b => if b = "" then none else some b

/-- PUT /profile handler. `storage` models uploadToCloudinary followed by
reading secure_url. When a file is present the UPDATE sets bio and
avatar_url; when only a non-empty bio is present it sets bio alone; when
neither is present the handler returns early without touching the DB or
storage. -/
def updateProfile (db : Db) (userId : Nat) (bio : Option String)
    (file : Option FileBuf) (storage : FileBuf → String) : ProfileOut :=
  match file with
  | some f =>
    let avatarUrl := storage f
    { res := ProfileRes.updated (some avatarUrl),
      db := { db with users := db.users.map (fun u =>
        if u.id = userId then { u with bio := finalBioOf bio, avatar_url := some avatarUrl }
        else u) },
      storageCalled := true }
  | none =>
    match finalBioOf bio with
    | none => { res := ProfileRes.noop, db := db, storageCalled := false }
    | some b =>
      { res := ProfileRes.updated none,
        db := { db with users := db.users.map (fun u =>
          if u.id = userId then { u with bio := some b } else u) },
        storageCalled := false }

/-! ### Sequential step relation over the job tables (for the lifecycle
invariant): states reachable from the empty database by createJob and hire
calls. -/

inductive Step : Db → Db → Prop
  | create (db : Db) (caller : JwtPayload) (title description : String) (budget : Int) :
      Step db (createJob db caller title description budget).2
  | doHire (db : Db) (jobId : Nat) (caller : JwtPayload) :
      Step db (hire db jobId caller).2

def Reachable (db : Db) : Prop :=
  Relation.ReflTransGen Step emptyDb db

/-- Well-formedness of the jobs table maintained by createJob and hire:
ids are positive, below the AUTO_INCREMENT counter and pairwise distinct,
and every row is either open with no freelancer or in_progress with one. -/
def JobsWF (db : Db) : Prop :=
  1 ≤ db.nextJobId ∧
  (∀ j ∈ db.jobs, 1 ≤ j.id ∧ j.id < db.nextJobId) ∧
  db.jobs.Pairwise (fun a b => a.id ≠ b.id) ∧
  (∀ j ∈ db.jobs,
    (j.status = "open" ∧ j.freelancer_id = none) ∨
    (j.status = "in_progress" ∧ j.freelancer_id.isSome))

/-! ### Sample data used to instantiate the theorems below. -/

def exHash : Hash := { cost := 10, salt := 7, pw := "pw" }

def exClient : User :=
  { id := 1, name := "C", email := "c@x.com", password := exHash, role := "client" }

def exFreelancer : User :=
  { id := 2, name := "F", email := "f@x.com", password := exHash, role := "freelancer" }

def exOpenJob : Job :=
  { id := 1, client_id := 1, title := "t", description := "d", budget := 100 }

def exDb : Db :=
  { users := [exClient, exFreelancer], jobs := [exOpenJob], messages := [],
    nextUserId := 3, nextJobId := 2 }

def exDbHired : Db := (hire exDb 1 { id := 2, role := "freelancer" }).2

def exCaller : JwtPayload := { id := 1, role := "client" }

def exJob1 : Job := { id := 1, client_id := 1, title := "t", description := "d", budget := 100 }

def exDb1 : Db := (createJob emptyDb exCaller "t" "d" 100).2

def exDbBio : Db :=
  { users := [{ exClient with bio := some "an existing bio" }], jobs := [], messages := [],
    nextUserId := 2, nextJobId := 1 }

/-! ### Helper lemmas -/

/-- In a jobs table with pairwise-distinct ids, two rows with the same id
are the same row. -/
theorem jobs_id_injective {l : List Job} (hp : l.Pairwise fun a b => a.id ≠ b.id)
    {j k : Job} (hj : j ∈ l) (hk : k ∈ l) (hid : j.id = k.id) : j = k := by
  induction l with
  | nil => simp at hj
  | cons a t ih =>
    rw [List.pairwise_cons] at hp
    rcases List.mem_cons.mp hj with hj1 | hj1
    · rcases List.mem_cons.mp hk with hk1 | hk1
      · rw [hj1, hk1]
      · subst hj1
        exact absurd hid (hp.1 k hk1)
    · rcases List.mem_cons.mp hk with hk1 | hk1
      · subst hk1
        exact absurd hid.symm (hp.1 j hj1)
      · exact ih hp.2 hj1 hk1

/-- The SELECT of hire returns no row exactly when no job with the id is
open. -/
theorem hire_filter_nil {db : Db} {jobId : Nat}
    (hnone : ∀ j ∈ db.jobs, ¬(j.id = jobId ∧ j.status = "open")) :
    db.jobs.filter (fun j => j.id == jobId && j.status == "open") = [] := by
  rw [List.filter_eq_nil_iff]
  intro j hj
  simp only [Bool.and_eq_true, beq_iff_eq]
  exact fun hc => hnone j hj hc

/-! ### Claim theorems -/

/-- C1: for every hire request, a caller whose role is not "freelancer" gets
Forbidden with the state unchanged; when no job with the given id is in state
"open" (nonexistent or already hired alike) the result is NotFoundError with
the state unchanged; otherwise the call succeeds, leaves users and messages
alone, and rewrites exactly the rows with the given id to carry the caller as
freelancer_id and status "in_progress", leaving every other row unchanged. -/
theorem hire_spec (db : Db) (jobId : Nat) (caller : JwtPayload) :
    (caller.role ≠ "freelancer" → hire db jobId caller = (HireRes.forbidden, db)) ∧
    (caller.role = "freelancer" →
      (∀ j ∈ db.jobs, ¬(j.id = jobId ∧ j.status = "open")) →
      hire db jobId caller = (HireRes.notFound, db)) ∧
    (caller.role = "freelancer" →
      (∃ j ∈ db.jobs, j.id = jobId ∧ j.status = "open") →
      (hire db jobId caller).1 = HireRes.ok ∧
      (hire db jobId caller).2.users = db.users ∧
      (hire db jobId caller).2.messages = db.messages ∧
      (hire db jobId caller).2.jobs.length = db.jobs.length ∧
      ∀ i, (hi : i < db.jobs.length) →
        (db.jobs[i].id = jobId →
          (hire db jobId caller).2.jobs[i]? =
            some { db.jobs[i] with freelancer_id := some caller.id,
                                   status := "in_progress" }) ∧
        (db.jobs[i].id ≠ jobId →
          (hire db jobId caller).2.jobs[i]? = some db.jobs[i])) := by
  refine ⟨?_, ?_, ?_⟩
  · intro hrole
    simp only [hire, if_pos hrole]
  · intro hrole hnone
    simp [hire, if_neg (not_not_intro hrole), hire_filter_nil hnone]
  · rintro hrole ⟨j, hj, hid, hopen⟩
    have hmem : j ∈ db.jobs.filter (fun j => j.id == jobId && j.status == "open") :=
      List.mem_filter.mpr ⟨hj, by simp [hid, hopen]⟩
    have hlen : ¬(db.jobs.filter (fun j => j.id == jobId && j.status == "open")).length = 0 := by
      rw [List.length_eq_zero]
      exact fun hnil => by simp [hnil] at hmem
    have hres : hire db jobId caller =
        (HireRes.ok,
         { db with jobs := db.jobs.map (fun j =>
             if j.id = jobId then
               { j with freelancer_id := some caller.id, status := "in_progress" }
             else j) }) := by
      simp only [hire, if_neg (not_not_intro hrole), if_neg hlen]
    refine ⟨by rw [hres], by rw [hres], by rw [hres], by rw [hres]; simp, ?_⟩
    intro i hi
    constructor
    · intro hidi
      rw [hres]
      simp [List.getElem?_map, List.getElem?_eq_getElem hi, hidi]
    · intro hidi
      rw [hres]
      simp [List.getElem?_map, List.getElem?_eq_getElem hi, hidi]

theorem hire_spec_witness :
    (hire exDb 1 { id := 2, role := "freelancer" }).1 = HireRes.ok ∧
    (hire exDb 1 { id := 2, role := "freelancer" }).2.jobs[0]? =
      some { exOpenJob with freelancer_id := some 2, status := "in_progress" } := by
  have h := (hire_spec exDb 1 { id := 2, role := "freelancer" }).2.2 rfl
    ⟨exOpenJob, by decide, rfl, rfl⟩
  refine ⟨h.1, ?_⟩
  have := (h.2.2.2.2 0 (by decide)).1 (by decide)
  exact this

/-- createJob preserves well-formedness of the jobs table. -/
theorem wf_createJob {db : Db} (hwf : JobsWF db) (caller : JwtPayload)
    (title description : String) (budget : Int) :
    JobsWF (createJob db caller title description budget).2 := by
  obtain ⟨hone, hids, hpw, hdich⟩ := hwf
  by_cases hrole : caller.role ≠ "client"
  · simpa only [createJob, if_pos hrole] using ⟨hone, hids, hpw, hdich⟩
  · refine ⟨?_, ?_, ?_, ?_⟩
    · simp only [createJob, if_neg hrole]
      omega
    · intro j hj
      simp only [createJob, if_neg hrole, List.mem_append, List.mem_singleton] at hj
      simp only [createJob, if_neg hrole]
      rcases hj with hj1 | hj1
      · have := hids j hj1
        constructor <;> omega
      · subst hj1
        constructor <;> simp only [] <;> omega
    · simp only [createJob, if_neg hrole]
      rw [List.pairwise_append]
      refine ⟨hpw, List.pairwise_singleton _ _, ?_⟩
      intro a ha b hb
      rw [List.mem_singleton] at hb
      subst hb
      have := hids a ha
      simp only
      omega
    · intro j hj
      simp only [createJob, if_neg hrole, List.mem_append, List.mem_singleton] at hj
      rcases hj with hj1 | hj1
      · exact hdich j hj1
      · subst hj1
        exact Or.inl ⟨rfl, rfl⟩

/-- hire preserves well-formedness of the jobs table. -/
theorem wf_hire {db : Db} (hwf : JobsWF db) (jobId : Nat) (caller : JwtPayload) :
    JobsWF (hire db jobId caller).2 := by
  obtain ⟨hone, hids, hpw, hdich⟩ := hwf
  by_cases hrole : caller.role ≠ "freelancer"
  · simpa only [hire, if_pos hrole] using ⟨hone, hids, hpw, hdich⟩
  · by_cases hlen : (db.jobs.filter (fun j => j.id == jobId && j.status == "open")).length = 0
    · simpa only [hire, if_neg hrole, if_pos hlen] using ⟨hone, hids, hpw, hdich⟩
    · simp only [hire, if_neg hrole, if_neg hlen]
      have hid_pres : ∀ a : Job,
          ((if a.id = jobId then
              { a with freelancer_id := some caller.id, status := "in_progress" }
            else a) : Job).id = a.id := by
        intro a
        by_cases h : a.id = jobId <;> simp [h]
      refine ⟨hone, ?_, ?_, ?_⟩
      · intro j hj
        simp only at hj
        rcases List.mem_map.mp hj with ⟨a, ha, rfl⟩
        rw [hid_pres a]
        exact hids a ha
      · simp only
        exact hpw.map _ (fun a b hab => by rw [hid_pres a, hid_pres b]; exact hab)
      · intro j hj
        simp only at hj
        rcases List.mem_map.mp hj with ⟨a, ha, rfl⟩
        by_cases h : a.id = jobId
        · rw [if_pos h]
          exact Or.inr ⟨rfl, rfl⟩
        · rw [if_neg h]
          exact hdich a ha

/-- Every state reachable by createJob and hire from the empty database has a
well-formed jobs table. -/
theorem reachable_wf {db : Db} (h : Reachable db) : JobsWF db := by
  induction h with
  | refl =>
    exact ⟨Nat.le_refl 1, by simp [emptyDb], by simp [emptyDb], by simp [emptyDb]⟩
  | tail h1 hstep ih =>
    cases hstep with
    | create caller title description budget =>
      exact wf_createJob ih caller title description budget
    | doHire jobId caller =>
      exact wf_hire ih jobId caller

/-- A single createJob or hire step keeps every in_progress row intact: hire
only rewrites rows that were selected as open, and ids are unique. -/
theorem step_preserves_hired {db db' : Db} (hwf : JobsWF db) (hstep : Step db db')
    {j : Job} (hj : j ∈ db.jobs) (hprog : j.status = "in_progress") : j ∈ db'.jobs := by
  cases hstep with
  | create caller title description budget =>
    by_cases hrole : caller.role ≠ "client"
    · simpa only [createJob, if_pos hrole] using hj
    · simp only [createJob, if_neg hrole]
      exact List.mem_append_left _ hj
  | doHire jobId caller =>
    by_cases hrole : caller.role ≠ "freelancer"
    · simpa only [hire, if_pos hrole] using hj
    · by_cases hlen : (db.jobs.filter (fun j => j.id == jobId && j.status == "open")).length = 0
      · simpa only [hire, if_neg hrole, if_pos hlen] using hj
      · simp only [hire, if_neg hrole, if_neg hlen]
        have hne : db.jobs.filter (fun j => j.id == jobId && j.status == "open") ≠ [] := by
          intro hnil
          rw [hnil] at hlen
          exact hlen rfl
        obtain ⟨k, hk⟩ := List.exists_mem_of_ne_nil _ hne
        have hk2 := List.mem_filter.mp hk
        have hkprops : k.id = jobId ∧ k.status = "open" := by
          have := hk2.2
          simpa using this
        have hjid : j.id ≠ jobId := by
          intro heq
          have hjk : j = k :=
            jobs_id_injective hwf.2.2.1 hj hk2.1 (by rw [heq, hkprops.1])
          rw [hjk, hkprops.2] at hprog
          simp at hprog
        refine List.mem_map.mpr ⟨j, hj, ?_⟩
        rw [if_neg hjid]

/-- In_progress rows survive any sequence of further createJob and hire
steps unchanged. -/
theorem rtg_preserves_hired {db db' : Db} (hdb : Reachable db)
    (h : Relation.ReflTransGen Step db db') {j : Job} (hj : j ∈ db.jobs)
    (hprog : j.status = "in_progress") : j ∈ db'.jobs := by
  induction h with
  | refl => exact hj
  | tail h1 hstep ih =>
    exact step_preserves_hired (reachable_wf (hdb.trans h1)) hstep ih hprog

/-- C2: on every database reachable from the empty state by createJob and
hire calls, an open job has no freelancer, an in_progress job has one, a
successful hire leaves the target rows in_progress with the caller as
freelancer, and an in_progress row is never modified again by further
createJob or hire steps — so at most one freelancer is ever assigned to a
job. -/
theorem job_lifecycle_inv (db : Db) (hr : Reachable db) :
    (∀ j ∈ db.jobs, j.status = "open" → j.freelancer_id = none) ∧
    (∀ j ∈ db.jobs, j.status = "in_progress" → j.freelancer_id.isSome = true) ∧
    (∀ jobId caller, (hire db jobId caller).1 = HireRes.ok →
      ∀ j ∈ (hire db jobId caller).2.jobs, j.id = jobId →
        j.status = "in_progress" ∧ j.freelancer_id = some caller.id) ∧
    (∀ db', Relation.ReflTransGen Step db db' →
      ∀ j ∈ db.jobs, j.status = "in_progress" → j ∈ db'.jobs) := by
  have hwf := reachable_wf hr
  refine ⟨?_, ?_, ?_, ?_⟩
  · intro j hj hopen
    rcases hwf.2.2.2 j hj with ⟨_, hnone⟩ | ⟨hprog, _⟩
    · exact hnone
    · rw [hopen] at hprog
      simp at hprog
  · intro j hj hprog
    rcases hwf.2.2.2 j hj with ⟨hopen, _⟩ | ⟨_, hsome⟩
    · rw [hprog] at hopen
      simp at hopen
    · exact hsome
  · intro jobId caller hok j hj hjid
    by_cases hrole : caller.role ≠ "freelancer"
    · rw [hire, if_pos hrole] at hok
      exact absurd hok (by simp)
    · by_cases hlen : (db.jobs.filter (fun j => j.id == jobId && j.status == "open")).length = 0
      · rw [hire, if_neg hrole] at hok
        simp only [if_pos hlen] at hok
        exact absurd hok (by simp)
      · simp only [hire, if_neg hrole, if_neg hlen] at hj
        rcases List.mem_map.mp hj with ⟨a, ha, rfl⟩
        by_cases h : a.id = jobId
        · rw [if_pos h]
          exact ⟨rfl, rfl⟩
        · rw [if_neg h] at hjid ⊢
          exact absurd hjid h
  · intro db' hsteps j hj hprog
    exact rtg_preserves_hired hr hsteps hj hprog

theorem job_lifecycle_inv_witness :
    exJob1.freelancer_id = none ∧ exJob1 ∈ exDb1.jobs := by
  have hm : exJob1 ∈ exDb1.jobs := by decide
  have hr : Reachable exDb1 :=
    Relation.ReflTransGen.single (Step.create emptyDb exCaller "t" "d" 100)
  exact ⟨(job_lifecycle_inv exDb1 hr).1 exJob1 hm rfl, hm⟩

/-- The SELECT by email returns no row exactly when no user has the email. -/
theorem users_filter_nil {db : Db} {email : String}
    (hne : ∀ u ∈ db.users, u.email ≠ email) :
    db.users.filter (fun u => u.email == email) = [] := by
  rw [List.filter_eq_nil_iff]
  intro u hu
  simp only [beq_iff_eq]
  exact hne u hu

/-- Successful register run: fresh email and a string password insert exactly
one user row built from the request, with the role defaulting by JS
truthiness, and return the AUTO_INCREMENT id. -/
theorem register_success_aux (db : Db) (name email p : String) (role : Option String)
    (salt : Nat) (mailOut : Except String Unit)
    (hfree : db.users.filter (fun u => u.email == email) = []) :
    register db name email (some p) role salt mailOut =
      (RegisterRes.created db.nextUserId,
       { db with
         users := db.users ++
           [{ id := db.nextUserId, name := name, email := email,
              password := { cost := 10, salt := salt, pw := p },
              role := match role with
                      | some r => if r == "" then "freelancer" else r
                      | none => "freelancer" }],
         nextUserId := db.nextUserId + 1 }) := by
  simp [register, registerBody, bcryptHash, hfree]

/-- C3: POST /login: an unknown email yields NotFoundError; for the first
user row matching the email, a failing bcrypt comparison yields
InvalidCredentialError, and a passing one returns a token signed with the
server secret embedding the user id and role with expiry now plus 24 hours,
together with the public projection id, name, role, avatar. -/
theorem login_spec (db : Db) (email password secret : String) (now : Nat) :
    ((∀ u ∈ db.users, u.email ≠ email) →
      login db email password secret now = LoginRes.notFound) ∧
    (∀ user rest, db.users.filter (fun u => u.email == email) = user :: rest →
      (bcryptCompare password user.password = false →
        login db email password secret now = LoginRes.invalidCredential) ∧
      (bcryptCompare password user.password = true →
        login db email password secret now =
          LoginRes.ok
            { payload := { id := user.id, role := user.role }, secret := secret,
              exp := now + 24 * 3600 }
            { id := user.id, name := user.name, role := user.role,
              avatar := user.avatar_url })) := by
  constructor
  · intro hne
    simp only [login, users_filter_nil hne]
  · intro user rest hfil
    constructor
    · intro hcmp
      simp [login, hfil, hcmp]
    · intro hcmp
      simp [login, hfil, hcmp, jwtSign]

theorem login_spec_witness :
    login exDb "c@x.com" "pw" "s" 0 =
      LoginRes.ok
        { payload := { id := 1, role := "client" }, secret := "s", exp := 0 + 24 * 3600 }
        { id := 1, name := "C", role := "client", avatar := none } :=
  ((login_spec exDb "c@x.com" "pw" "s" 0).2 exClient [] rfl).2 rfl

/-- C4 counterexample: registering with the empty string as role succeeds
but stores "freelancer", not the given role, because the handler tests the
role with JS truthiness. -/
theorem register_empty_role_counterexample :
    (register exDb "N" "n@x.com" (some "p") (some "") 7 (Except.ok ())).1 =
      RegisterRes.created 3 ∧
    (register exDb "N" "n@x.com" (some "p") (some "") 7 (Except.ok ())).2.users.map User.role ≠
      exDb.users.map User.role ++ [""] ∧
    (register exDb "N" "n@x.com" (some "p") (some "") 7 (Except.ok ())).2.users.map User.role =
      exDb.users.map User.role ++ ["freelancer"] := by
  refine ⟨rfl, by decide, rfl⟩

/-- C4 (amended): POST /register: an already-present email yields
ConflictError with the users table unchanged; otherwise exactly one user row
is appended, carrying the salted cost-10 bcrypt hash of the password, the
given role when it is a non-empty string and "freelancer" when the role is
unspecified (or empty, by JS truthiness), and the response carries the id of
the new row. -/
theorem register_spec (db : Db) (name email : String) (password : Option String)
    (role : Option String) (salt : Nat) (mailOut : Except String Unit) :
    ((∃ u ∈ db.users, u.email = email) →
      register db name email password role salt mailOut = (RegisterRes.conflict, db)) ∧
    ((∀ u ∈ db.users, u.email ≠ email) → ∀ p, password = some p →
      ∃ newUser : User,
        register db name email password role salt mailOut =
          (RegisterRes.created db.nextUserId,
           { db with users := db.users ++ [newUser],
                     nextUserId := db.nextUserId + 1 }) ∧
        newUser.id = db.nextUserId ∧ newUser.name = name ∧ newUser.email = email ∧
        newUser.password = { cost := 10, salt := salt, pw := p } ∧
        newUser.bio = none ∧ newUser.avatar_url = none ∧
        (role = none → newUser.role = "freelancer") ∧
        (∀ r, role = some r → r ≠ "" → newUser.role = r)) := by
  constructor
  · rintro ⟨u, hu, hue⟩
    have hmem : u ∈ db.users.filter (fun u => u.email == email) :=
      List.mem_filter.mpr ⟨hu, by simp [hue]⟩
    have hlen : (db.users.filter (fun u => u.email == email)).length > 0 :=
      List.length_pos.mpr (List.ne_nil_of_mem hmem)
    simp [register, registerBody, hlen]
    rfl
  · intro hne p hp
    subst hp
    refine ⟨_, register_success_aux db name email p role salt mailOut (users_filter_nil hne),
      rfl, rfl, rfl, rfl, rfl, rfl, ?_, ?_⟩
    · intro hr
      subst hr
      rfl
    · intro r hr hrne
      subst hr
      simp [hrne]

theorem register_spec_witness :
    (register exDb "N" "n@x.com" (some "p") none 7 (Except.ok ())).1 =
      RegisterRes.created 3 := by
  obtain ⟨nu, heq, _⟩ :=
    (register_spec exDb "N" "n@x.com" (some "p") none 7 (Except.ok ())).2
      (by decide) "p" rfl
  rw [heq]
  rfl

/-- C8: the outcome of the Brevo welcome-email call never changes the result
or the stored state of register (the send is wrapped in its own try/catch),
and with a fresh email and a string password registration succeeds for every
send outcome. -/
theorem register_email_best_effort (db : Db) (name email : String)
    (password : Option String) (role : Option String) (salt : Nat) :
    (∀ mailOut1 mailOut2 : Except String Unit,
      register db name email password role salt mailOut1 =
        register db name email password role salt mailOut2) ∧
    (∀ mailOut : Except String Unit, ∀ p, password = some p →
      (∀ u ∈ db.users, u.email ≠ email) →
      (register db name email password role salt mailOut).1 =
        RegisterRes.created db.nextUserId) := by
  refine ⟨fun _ _ => rfl, ?_⟩
  intro mailOut p hp hne
  subst hp
  rw [register_success_aux db name email p role salt mailOut (users_filter_nil hne)]

theorem register_email_best_effort_witness :
    register exDb "N" "n@x.com" (some "p") none 7 (Except.error "brevo down") =
      register exDb "N" "n@x.com" (some "p") none 7 (Except.ok ()) ∧
    (register exDb "N" "n@x.com" (some "p") none 7 (Except.error "brevo down")).1 =
      RegisterRes.created 3 :=
  ⟨(register_email_best_effort exDb "N" "n@x.com" (some "p") none 7).1 _ _,
   (register_email_best_effort exDb "N" "n@x.com" (some "p") none 7).2
     (Except.error "brevo down") "p" rfl (by decide)⟩

/-- C10: register performs no input validation: with a fresh email and a
missing password, bcrypt.hash throws, the catch-all answers the generic 500
InternalError, and no user row is inserted (the state is unchanged). -/
theorem register_missing_password (db : Db) (name email : String) (role : Option String)
    (salt : Nat) (mailOut : Except String Unit)
    (hne : ∀ u ∈ db.users, u.email ≠ email) :
    register db name email none role salt mailOut = (RegisterRes.internalError, db) := by
  simp [register, registerBody, bcryptHash, users_filter_nil hne]

theorem register_missing_password_witness :
    register exDb "N" "n@x.com" none none 7 (Except.ok ()) =
      (RegisterRes.internalError, exDb) :=
  register_missing_password exDb "N" "n@x.com" none 7 (Except.ok ()) (by decide)

/-- C5: the authenticateToken middleware answers Unauthenticated when the
header yields no bearer token, Forbidden when the extracted token is opaque
text, carries a wrong signature, or is expired (in particular any token
signed with the server secret more than 24 hours before now), and on success
attaches the decoded id-and-role payload for the downstream handler. -/
theorem authenticateToken_spec (h : Option (List HeaderWord)) (secret : String) (now : Nat) :
    (extractToken h = none → authenticateToken h secret now = AuthRes.unauthenticated) ∧
    (∀ s, extractToken h = some (HeaderWord.raw s) →
      authenticateToken h secret now = AuthRes.forbidden) ∧
    (∀ t, extractToken h = some (HeaderWord.tok t) → t.secret ≠ secret →
      authenticateToken h secret now = AuthRes.forbidden) ∧
    (∀ t, extractToken h = some (HeaderWord.tok t) → t.exp ≤ now →
      authenticateToken h secret now = AuthRes.forbidden) ∧
    (∀ t, extractToken h = some (HeaderWord.tok t) → t.secret = secret → now < t.exp →
      authenticateToken h secret now = AuthRes.ok t.payload) ∧
    (∀ p iat, iat + 24 * 3600 < now →
      jwtVerify (jwtSign p secret iat) secret now = Except.error "jwt expired") := by
  refine ⟨?_, ?_, ?_, ?_, ?_, ?_⟩
  · intro hx
    simp [authenticateToken, hx]
  · intro s hx
    simp [authenticateToken, hx, jwtVerifyWord]
  · intro t hx hsec
    simp [authenticateToken, hx, jwtVerifyWord, jwtVerify, hsec]
  · intro t hx hexp
    by_cases hsec : t.secret = secret
    · simp [authenticateToken, hx, jwtVerifyWord, jwtVerify, hsec, hexp]
    · simp [authenticateToken, hx, jwtVerifyWord, jwtVerify, hsec]
  · intro t hx hsec hlt
    simp [authenticateToken, hx, jwtVerifyWord, jwtVerify, hsec, Nat.not_le.mpr hlt]
  · intro p iat hlt
    have hle : iat + 24 * 3600 ≤ now := Nat.le_of_lt hlt
    simp [jwtVerify, jwtSign, hle]

theorem authenticateToken_spec_witness :
    authenticateToken
      (some [HeaderWord.raw "Bearer",
             HeaderWord.tok { payload := { id := 2, role := "freelancer" },
                              secret := "s", exp := 100 }])
      "s" 5 = AuthRes.ok { id := 2, role := "freelancer" } :=
  (authenticateToken_spec _ "s" 5).2.2.2.2.1
    { payload := { id := 2, role := "freelancer" }, secret := "s", exp := 100 }
    rfl rfl (by decide)

/-- C6: POST /messages: when no job row with the given id has the caller as
client or assigned freelancer, the result is Forbidden with the state
unchanged; for the first row the SELECT returns, a client sender on a job
without a freelancer gets the ValidationError, and otherwise exactly one
message is appended whose receiver is the other participant (the freelancer
when the sender is the client, the client otherwise), existing messages and
the rest of the state being unchanged. The nonzero-id hypotheses reflect
that MySQL AUTO_INCREMENT ids start at 1. -/
theorem sendMessage_spec (db : Db) (caller : JwtPayload) (jobId : Nat) (content : String)
    (receiverId : Option Nat) (now : Nat) :
    ((∀ j ∈ db.jobs, j.id = jobId →
        j.client_id ≠ caller.id ∧ j.freelancer_id ≠ some caller.id) →
      sendMessage db caller jobId content receiverId now = (SendMsgRes.forbidden, db)) ∧
    (∀ j rest,
      db.jobs.filter (fun j =>
        j.id == jobId &&
          (j.client_id == caller.id || j.freelancer_id == some caller.id)) = j :: rest →
      (caller.id = j.client_id → j.freelancer_id = none →
        sendMessage db caller jobId content receiverId now =
          (SendMsgRes.validationError, db)) ∧
      (∀ f, caller.id = j.client_id → j.freelancer_id = some f → f ≠ 0 →
        sendMessage db caller jobId content receiverId now =
          (SendMsgRes.created,
           { db with messages := db.messages ++
               [{ job_id := jobId, sender_id := caller.id, receiver_id := f,
                  content := content, created_at := now }] })) ∧
      (caller.id ≠ j.client_id → j.client_id ≠ 0 →
        sendMessage db caller jobId content receiverId now =
          (SendMsgRes.created,
           { db with messages := db.messages ++
               [{ job_id := jobId, sender_id := caller.id, receiver_id := j.client_id,
                  content := content, created_at := now }] }))) := by
  refine ⟨?_, ?_⟩
  · intro hnp
    have hfil : db.jobs.filter (fun j =>
        j.id == jobId &&
          (j.client_id == caller.id || j.freelancer_id == some caller.id)) = [] := by
      rw [List.filter_eq_nil_iff]
      intro j hj
      simp only [Bool.and_eq_true, Bool.or_eq_true, beq_iff_eq, not_and, not_or]
      intro hid
      exact ⟨(hnp j hj hid).1, (hnp j hj hid).2⟩
    simp [sendMessage, hfil]
  · intro j rest hfil
    refine ⟨?_, ?_, ?_⟩
    · intro hcid hfree
      simp only [sendMessage]
      rw [hfil]
      simp [hcid, hfree]
    · intro f hcid hf hf0
      simp only [sendMessage]
      rw [hfil]
      simp [hcid, hf, hf0]
    · intro hcid hc0
      simp only [sendMessage]
      rw [hfil]
      simp [hcid, hc0]

theorem sendMessage_spec_witness :
    sendMessage exDbHired { id := 1, role := "client" } 1 "hello" none 50 =
      (SendMsgRes.created,
       { exDbHired with messages := exDbHired.messages ++
           [{ job_id := 1, sender_id := 1, receiver_id := 2,
              content := "hello", created_at := 50 }] }) :=
  ((sendMessage_spec exDbHired { id := 1, role := "client" } 1 "hello" none 50).2
      { exOpenJob with freelancer_id := some 2, status := "in_progress" } []
      (by decide)).2.1 2 rfl rfl (by decide)

/-- C9: the receiverId field of the request body is bound by the handler but
never used: two sendMessage calls differing only in receiverId produce the
same response and the same stored state, so a caller cannot direct a message
to an arbitrary user. -/
theorem sendMessage_ignores_receiverId (db : Db) (caller : JwtPayload) (jobId : Nat)
    (content : String) (now : Nat) (receiverId1 receiverId2 : Option Nat) :
    sendMessage db caller jobId content receiverId1 now =
      sendMessage db caller jobId content receiverId2 now := rfl

/-- C7 counterexample: a request supplying only an avatar file (no bio) does
NOT leave the existing bio unchanged: the UPDATE always writes the bio
column, so the stored bio becomes NULL while the avatar url is stored. -/
theorem updateProfile_avatar_clears_bio_counterexample :
    (updateProfile exDbBio 1 none (some { buffer := "pic" })
        (fun f => "https://cdn.example/" ++ f.buffer)).db.users.map User.bio = [none] ∧
    exDbBio.users.map User.bio = [some "an existing bio"] ∧
    (updateProfile exDbBio 1 none (some { buffer := "pic" })
        (fun f => "https://cdn.example/" ++ f.buffer)).db.users.map User.avatar_url =
      [some "https://cdn.example/pic"] :=
  ⟨rfl, rfl, rfl⟩

/-- C7 (amended): PUT /profile: if neither a bio nor a file is supplied
(including an empty bio), the handler answers a no-op success touching
neither storage nor the user table; storage is invoked exactly when a file is
supplied; jobs and messages are never touched; when a file is supplied the
row of the user gets the public URL in avatar_url but its bio is overwritten
with the normalised request bio (NULL when absent or empty — supplying only
an avatar clears an existing bio); when only a non-empty bio is supplied,
just the bio column of the row changes and avatar_url is untouched. -/
theorem updateProfile_spec (db : Db) (userId : Nat) (bio : Option String)
    (file : Option FileBuf) (storage : FileBuf → String) :
    (finalBioOf bio = none → file = none →
      updateProfile db userId bio file storage =
        { res := ProfileRes.noop, db := db, storageCalled := false }) ∧
    ((updateProfile db userId bio file storage).storageCalled = file.isSome) ∧
    ((updateProfile db userId bio file storage).db.jobs = db.jobs) ∧
    ((updateProfile db userId bio file storage).db.messages = db.messages) ∧
    (∀ f, file = some f →
      (updateProfile db userId bio file storage).res =
        ProfileRes.updated (some (storage f)) ∧
      (updateProfile db userId bio file storage).db.users =
        db.users.map (fun u =>
          if u.id = userId then
            { u with bio := finalBioOf bio, avatar_url := some (storage f) }
          else u)) ∧
    (∀ b, bio = some b → b ≠ "" → file = none →
      (updateProfile db userId bio file storage).res = ProfileRes.updated none ∧
      (updateProfile db userId bio file storage).db.users =
        db.users.map (fun u =>
          if u.id = userId then { u with bio := some b } else u)) := by
  refine ⟨?_, ?_, ?_, ?_, ?_, ?_⟩
  · intro hb hf
    subst hf
    simp [updateProfile, hb]
  · cases file with
    | none => cases hbo : finalBioOf bio <;> simp [updateProfile, hbo]
    | some f => simp [updateProfile]
  · cases file with
    | none => cases hbo : finalBioOf bio <;> simp [updateProfile, hbo]
    | some f => simp [updateProfile]
  · cases file with
    | none => cases hbo : finalBioOf bio <;> simp [updateProfile, hbo]
    | some f => simp [updateProfile]
  · intro f hf
    subst hf
    exact ⟨rfl, rfl⟩
  · intro b hb hbne hf
    subst hf
    subst hb
    have hbo : finalBioOf (some b) = some b := by simp [finalBioOf, hbne]
    simp [updateProfile, hbo]

theorem updateProfile_spec_witness :
    updateProfile exDbBio 1 none none (fun f => f.buffer) =
      { res := ProfileRes.noop, db := exDbBio, storageCalled := false } :=
  (updateProfile_spec exDbBio 1 none none (fun f => f.buffer)).1 rfl rfl
